import Mathlib

/-!
Shallow embedding of the core of the CS325 job-pipeline repository:
the identity-keyed merge of `src/storage.py`, the embedding attachment of
`src/storage.py`, the cleaner and cosine similarity of `src/data_processor.py`,
and the batched fetcher of `src/scraper.py`, together with proofs of the
specification's testable properties.
-/

namespace JobPipeline

/-- Python values that appear in job-record dictionaries: `None`, strings,
numbers (modelled as rationals), and embedding vectors (lists of numbers). -/
inductive Value where
  | vNull : Value
  | vStr : String → Value
  | vNum : ℚ → Value
  | vEmb : List ℚ → Value
deriving DecidableEq, Repr

/-- Python truthiness for the values above: `None`, the empty string, zero and
the empty list are falsy, everything else is truthy. -/
def Value.truthy : Value → Bool
  | .vNull => false
  | .vStr s => s ≠ ""
  | .vNum q => q ≠ 0
  | .vEmb l => l ≠ []

/-- A job record is a Python dict: an insertion-ordered association list from
field names to values. -/
abbrev Job := List (String × Value)

/-- Model of Python `d.get(k)`: the value stored at key `k`, or `none` when
the key is absent. -/
def pyGet (j : Job) (k : String) : Option Value :=
  (j.find? (fun p => p.1 = k)).map (fun p => p.2)

/-- Truthiness of `job.get('id')`: an absent key (`None` in Python) is falsy. -/
def idTruthy (j : Job) : Bool :=
  match pyGet j "id" with
  | some v => v.truthy
  | none => false

/-- The identity index of `merge_jobs_into_database`
(`src/storage.py:103`): the keys of the dict comprehension
`\x7bjob.get('id'): job for job in existing_jobs if job.get('id')\x7d` —
the ids of existing records whose id is truthy. -/
def existingIdIndex (existing : List Job) : List Value :=
  (existing.filter (fun j => idTruthy j)).filterMap (fun j => pyGet j "id")

/-- The acceptance test of the merge loop (`src/storage.py:109`):
`if job_id and job_id not in existing_jobs_dict`. -/
def acceptsJob (index : List Value) (job : Job) : Bool :=
  match pyGet job "id" with
  | some v => v.truthy && !(index.contains v)
  | none => false

/-- The merge of `src/storage.py:90-118` (`merge_jobs_into_database`): build
the identity index over the existing records, keep each new record whose id is
truthy and not in the index (appending to `unique_new_jobs` as the Python loop
does), and return the existing records followed by the kept ones together with
the number kept. -/
def merge_jobs_into_database (existing_jobs new_jobs : List Job) :
    List Job × Nat :=
  let idx := existingIdIndex existing_jobs
  let unique_new_jobs :=
    new_jobs.foldl (fun acc job => if acceptsJob idx job then acc ++ [job] else acc) []
  (existing_jobs ++ unique_new_jobs, unique_new_jobs.length)

/-- Model of Python dict assignment `d[k] = v` on a copy of the record: an
existing key keeps its position and gets the new value, a new key is appended. -/
def setItem (j : Job) (k : String) (v : Value) : Job :=
  if j.any (fun p => p.1 = k) then
    j.map (fun p => if p.1 = k then (k, v) else p)
  else
    j ++ [(k, v)]

/-- The embedding attachment of `src/storage.py:143-163`
(`add_embeddings_to_jobs`): raises `ValueError` when the counts differ,
otherwise returns fresh copies of the jobs with `embedding` set positionally
from the vectors. -/
def add_embeddings_to_jobs (jobs : List Job) (embeddings : List (List ℚ)) :
    Except String (List Job) :=
  if jobs.length ≠ embeddings.length then
    .error "Number of jobs must match number of embeddings"
  else
    .ok ((jobs.zip embeddings).map (fun p => setItem p.1 "embedding" (Value.vEmb p.2)))

/-- A pandas DataFrame as the cleaner uses it: a column header and rows of
cells (one cell per column). -/
structure DataFrame where
  cols : List String
  rows : List (List Value)
deriving DecidableEq, Repr

/-- The fixed list of extraneous columns dropped by `clean_jobs`
(`src/data_processor.py:25-33`). -/
def colsToDrop : List String :=
  ["site",
   "job_url", "job_url_direct",
   "job_type", "salary_source", "interval", "min_amount", "max_amount",
   "currency", "is_remote", "listing_type", "vacancy_count", "work_from_home_type",
   "emails",
   "company_url", "company_logo", "company_url_direct", "company_addresses",
   "company_num_employees", "company_revenue", "company_rating", "company_reviews_count"]

/-- Step 1 of `clean_jobs`: drop the extraneous columns that are present
(`df.drop(columns=cols_to_drop)` after intersecting with the actual columns). -/
def dropCols (df : DataFrame) : DataFrame :=
  { cols := df.cols.filter (fun c => !(colsToDrop.contains c)),
    rows := df.rows.map (fun r =>
      ((df.cols.zip r).filter (fun p => !(colsToDrop.contains p.1))).map (fun p => p.2)) }

/-- Model of `df.map(f)`: apply a cell transformation to every cell. -/
def mapCells (f : Value → Value) (df : DataFrame) : DataFrame :=
  { cols := df.cols, rows := df.rows.map (fun r => r.map f) }

/-- The cell transformation of step 2 of `clean_jobs`:
`x.lower() if isinstance(x, str) else x`. -/
def lowerCell : Value → Value
  | .vStr s => .vStr (String.mk (s.toList.map Char.toLower))
  | v => v

/-- Worker for `drop_duplicates`: keep the first occurrence of every row,
preserving order, as pandas does. -/
def dropDuplicatesAux (seen : List (List Value)) : List (List Value) → List (List Value)
  | [] => []
  | r :: rs =>
    if seen.contains r then dropDuplicatesAux seen rs
    else r :: dropDuplicatesAux (r :: seen) rs

/-- Model of `df.drop_duplicates()`: remove rows that are exact duplicates of
an earlier row across all columns. -/
def drop_duplicates (df : DataFrame) : DataFrame :=
  { cols := df.cols, rows := dropDuplicatesAux [] df.rows }

/-- A character survives the regex substitution of `clean_jobs` step 4 iff it
is in the class `[a-zA-Z0-9\s]`. -/
def keepChar (c : Char) : Bool :=
  c.isAlpha || c.isDigit || c.isWhitespace

/-- The cell transformation of step 4 of `clean_jobs`:
`re.sub(r"[^a-zA-Z0-9\s]", "", x) if isinstance(x, str) else x`. -/
def stripCell : Value → Value
  | .vStr s => .vStr (String.mk (s.toList.filter keepChar))
  | v => v

/-- The cleaner of `src/data_processor.py:7-51` (`clean_jobs`): drop the
extraneous columns, lowercase string cells, drop exact-duplicate rows, then
strip non-alphanumeric non-whitespace characters from string cells —
in that order. -/
def clean_jobs (df : DataFrame) : DataFrame :=
  mapCells stripCell (drop_duplicates (mapCells lowerCell (dropCols df)))

/-- Sum of pairwise products, as the generator expression
`sum(x * y for x, y in zip(a, b))` in `cosine_similarity` computes it. -/
def dotList (a b : List ℝ) : ℝ :=
  ((a.zip b).map (fun p => p.1 * p.2)).sum

/-- Sum of squares of one vector, `sum(x * x for x in a)`. -/
def sumSq (a : List ℝ) : ℝ :=
  (a.map (fun x => x * x)).sum

/-- Euclidean magnitude `math.sqrt(sum(x * x for x in a))`. -/
noncomputable def normList (a : List ℝ) : ℝ :=
  Real.sqrt (sumSq a)

open Classical in
/-- The cosine similarity of `src/data_processor.py:53-73`: raises
`ValueError` when the lengths differ, returns `0.0` when either magnitude is
zero, and otherwise returns `dot / (norm_a * norm_b)`. Python floats are
idealised as real numbers. -/
noncomputable def cosine_similarity (a b : List ℝ) : Except String ℝ :=
  if a.length ≠ b.length then
    .error "Vectors must be the same length"
  else if normList a = 0 ∨ normList b = 0 then
    .ok 0
  else
    .ok (dotList a b / (normList a * normList b))

/-- Outcome of one batch call of the fetcher, after its bounded retry
wrapper: either the retries were exhausted (`_scrape_jobs` raised), or a list
of records came back (possibly empty). -/
inductive BatchResult where
  | fail : BatchResult
  | records : List Job → BatchResult
deriving DecidableEq, Repr

/-- The fixed batch ceiling of `src/scraper.py:9`. -/
def BATCH_SIZE : Nat := 20

/-- Model of Python `range(0, stop, step)` for positive `step`. -/
def pyRange (stop step : Nat) : List Nat :=
  List.range' 0 ((stop + step - 1) / step) step

/-- The accumulation loop of `get_jobs` over the batch offsets
(`src/scraper.py:67-85`): a failed batch is skipped, an empty batch is
skipped, a non-empty batch is appended to the accumulated list of results.
The `backend` argument models `_scrape_jobs` applied at
(results wanted for the call, offset). -/
def collectBatches (backend : Nat → Nat → BatchResult) (offsets : List Nat) :
    List (List Job) :=
  offsets.foldl (fun acc off =>
    match backend BATCH_SIZE off with
    | .fail => acc
    | .records l => if l.isEmpty then acc else acc ++ [l]) []

/-- The batched fetcher of `src/scraper.py:45-100` (`get_jobs`): above the
ceiling, iterate over `range(0, results_wanted, BATCH_SIZE)` requesting
`BATCH_SIZE` records per call and concatenate the non-empty results (an empty
accumulation yields the empty frame); at or below the ceiling, make a single
call at offset 0 and absorb failure into an empty result. -/
def get_jobs (backend : Nat → Nat → BatchResult) (results_wanted : Nat) :
    List Job :=
  if results_wanted > BATCH_SIZE then
    (collectBatches backend (pyRange results_wanted BATCH_SIZE)).flatten
  else
    match backend results_wanted 0 with
    | .fail => []
    | .records l => l

/-- The stored record of the spec's dedup scenario. -/
def jobA : Job := [("id", .vStr "1"), ("title", .vStr "a")]

/-- The re-fetched duplicate of the dedup scenario, with a changed title. -/
def jobAChanged : Job := [("id", .vStr "1"), ("title", .vStr "a-changed")]

/-- The genuinely new record of the dedup scenario. -/
def jobB : Job := [("id", .vStr "2"), ("title", .vStr "b")]

/-- An already-enriched stored record with id `x`. -/
def jobX : Job := [("id", .vStr "x"), ("title", .vStr "old"), ("embedding", .vEmb [1, 2])]

/-- An incoming duplicate of `jobX` with different fields and no embedding. -/
def jobXDup : Job := [("id", .vStr "x"), ("title", .vStr "new")]

/-- A record whose id is the empty string (falsy in Python). -/
def jobEmptyId : Job := [("id", .vStr "")]

/-- A record whose id is `None` (falsy in Python). -/
def jobNullId : Job := [("id", .vNull)]

/-- A two-row one-column table whose rows differ only in a special character,
so they survive deduplication and collide after stripping. -/
def dupExample : DataFrame := ⟨["title"], [[.vStr "a!"], [.vStr "a?"]]⟩

/-! Helper lemmas about the merge. -/

theorem foldl_append_filter {α : Type} (p : α → Bool) (l : List α) :
    ∀ acc, l.foldl (fun a x => if p x then a ++ [x] else a) acc = acc ++ l.filter p := by
  induction l with
  | nil => intro acc; simp
  | cons x l ih =>
    intro acc
    by_cases h : p x = true
    · rw [List.foldl_cons, if_pos h, ih, List.filter_cons, if_pos h]
      simp
    · rw [List.foldl_cons, if_neg h, ih, List.filter_cons, if_neg h]

theorem merge_eq (existing new_jobs : List Job) :
    merge_jobs_into_database existing new_jobs
      = (existing ++ new_jobs.filter (acceptsJob (existingIdIndex existing)),
         (new_jobs.filter (acceptsJob (existingIdIndex existing))).length) := by
  simp only [merge_jobs_into_database]
  rw [foldl_append_filter]
  simp

theorem acceptsJob_iff (idx : List Value) (j : Job) :
    acceptsJob idx j = true ↔
      ∃ v, pyGet j "id" = some v ∧ v.truthy = true ∧ v ∉ idx := by
  unfold acceptsJob
  cases hid : pyGet j "id" with
  | none => simp
  | some v => simp [List.elem_iff]

theorem existingIdIndex_append (l₁ l₂ : List Job) :
    existingIdIndex (l₁ ++ l₂) = existingIdIndex l₁ ++ existingIdIndex l₂ := by
  unfold existingIdIndex
  rw [List.filter_append, List.filterMap_append]

theorem mem_existingIdIndex {l : List Job} {j : Job} {v : Value}
    (hj : j ∈ l) (hid : pyGet j "id" = some v) (ht : v.truthy = true) :
    v ∈ existingIdIndex l := by
  unfold existingIdIndex
  apply List.mem_filterMap.mpr
  exact ⟨j, List.mem_filter.mpr ⟨hj, by simp [idTruthy, hid, ht]⟩, hid⟩

theorem acceptsJob_truthy {idx : List Value} {j : Job}
    (h : acceptsJob idx j = true) : idTruthy j = true := by
  obtain ⟨v, hid, htr, -⟩ := (acceptsJob_iff idx j).mp h
  simp [idTruthy, hid, htr]

/-- C1: the merge is idempotent. For every existing store `S` and incoming
batch `B`, applying `merge_jobs_into_database` a second time with the same
batch adds zero records and leaves the merged collection unchanged. -/
theorem merge_idempotent (S B : List Job) :
    merge_jobs_into_database (merge_jobs_into_database S B).1 B
      = ((merge_jobs_into_database S B).1, 0) := by
  rw [merge_eq S B]
  simp only
  rw [merge_eq]
  have hfilter :
      B.filter (acceptsJob (existingIdIndex
        (S ++ B.filter (acceptsJob (existingIdIndex S))))) = [] := by
    rw [List.filter_eq_nil_iff]
    intro b hb hacc
    obtain ⟨v, hid, htr, hnotmem⟩ := (acceptsJob_iff _ b).mp hacc
    apply hnotmem
    rw [existingIdIndex_append]
    by_cases hpb : acceptsJob (existingIdIndex S) b = true
    · exact List.mem_append.mpr (Or.inr (mem_existingIdIndex
        (List.mem_filter.mpr ⟨hb, hpb⟩) hid htr))
    · have hvS : v ∈ existingIdIndex S := by
        by_contra hno
        exact hpb ((acceptsJob_iff _ b).mpr ⟨v, hid, htr, hno⟩)
      exact List.mem_append.mpr (Or.inl hvS)
  rw [hfilter]
  simp

/-- C2: merge preserves existing enrichments. If the store `S` contains a
record `j` with truthy id `x` carrying an embedding `e`, then after merging
any incoming batch `B` the merged collection still contains `j` with its
embedding unchanged, and every record of the merged collection whose id is
`x` comes from `S` (no incoming duplicate with id `x` is ever added). -/
theorem merge_preserves_existing_embedding (S B : List Job) (j : Job)
    (x e : Value) (hj : j ∈ S) (hid : pyGet j "id" = some x)
    (ht : x.truthy = true) (he : pyGet j "embedding" = some e) :
    j ∈ (merge_jobs_into_database S B).1 ∧
    pyGet j "embedding" = some e ∧
    ∀ b ∈ (merge_jobs_into_database S B).1, pyGet b "id" = some x → b ∈ S := by
  rw [merge_eq]
  refine ⟨List.mem_append.mpr (Or.inl hj), he, ?_⟩
  intro b hb hbid
  rcases List.mem_append.mp hb with h | h
  · exact h
  · exfalso
    obtain ⟨v, hid', htr', hnot⟩ := (acceptsJob_iff _ b).mp (List.mem_filter.mp h).2
    rw [hbid] at hid'
    obtain rfl : x = v := Option.some.inj hid'
    exact hnot (mem_existingIdIndex hj hid ht)

/-- Witness for C2 on the concrete store `[jobX]` (id `x`, embedding `[1,2]`)
and the incoming duplicate `jobXDup` (same id, different fields). -/
theorem merge_preserves_existing_embedding_witness :
    jobX ∈ (merge_jobs_into_database [jobX] [jobXDup]).1 ∧
    pyGet jobX "embedding" = some (.vEmb [1, 2]) ∧
    ∀ b ∈ (merge_jobs_into_database [jobX] [jobXDup]).1,
      pyGet b "id" = some (.vStr "x") → b ∈ [jobX] :=
  merge_preserves_existing_embedding [jobX] [jobXDup] jobX (.vStr "x")
    (.vEmb [1, 2]) (by decide) (by decide) (by decide) (by decide)

/-- C3: merge correctness. The merge returns the existing records in order
followed by exactly the incoming records accepted by the id test, in order,
and the count of accepted records; a record is accepted iff it carries a
truthy id (the spec's "present" id — a missing, null or empty id counts as
missing) that is not in the identity index of the existing store. On the
spec's dedup scenario the merged store is `[jobA, jobB]` with one record
added. -/
theorem merge_filter_characterization (existing new_jobs : List Job) :
    merge_jobs_into_database existing new_jobs
      = (existing ++ new_jobs.filter (acceptsJob (existingIdIndex existing)),
         (new_jobs.filter (acceptsJob (existingIdIndex existing))).length) ∧
    (∀ job : Job, acceptsJob (existingIdIndex existing) job = true ↔
      ∃ v, pyGet job "id" = some v ∧ v.truthy = true ∧ v ∉ existingIdIndex existing) ∧
    merge_jobs_into_database [jobA] [jobAChanged, jobB] = ([jobA, jobB], 1) :=
  ⟨merge_eq existing new_jobs, fun job => acceptsJob_iff _ job, by decide⟩

/-- C10: falsy ids are treated as missing. Every record the merge appends to
the store has a truthy id (so incoming records whose id is empty or `None`
are never added), and appending a record with a falsy id to the existing
store changes neither which incoming records are accepted nor the added
count. -/
theorem merge_falsy_id_as_missing (S B : List Job) (j0 : Job)
    (h0 : idTruthy j0 = false) :
    (∀ b ∈ (merge_jobs_into_database S B).1.drop S.length, idTruthy b = true) ∧
    merge_jobs_into_database (S ++ [j0]) B
      = ((S ++ [j0]) ++ (merge_jobs_into_database S B).1.drop S.length,
         (merge_jobs_into_database S B).2) := by
  have hidx : existingIdIndex (S ++ [j0]) = existingIdIndex S := by
    rw [existingIdIndex_append]
    have h1 : existingIdIndex [j0] = [] := by
      unfold existingIdIndex
      simp [h0]
    rw [h1, List.append_nil]
  constructor
  · intro b hb
    rw [merge_eq] at hb
    dsimp only at hb
    rw [List.drop_left] at hb
    exact acceptsJob_truthy (List.mem_filter.mp hb).2
  · rw [merge_eq, merge_eq, hidx]
    dsimp only
    rw [List.drop_left]

/-- Witness for C10 on an empty store, an incoming batch holding one record
with an empty-string id and one with a null id, and the falsy-id record
`jobEmptyId` appended to the store. -/
theorem merge_falsy_id_as_missing_witness :
    (∀ b ∈ (merge_jobs_into_database [] [jobEmptyId, jobNullId]).1.drop
        ([] : List Job).length, idTruthy b = true) ∧
    merge_jobs_into_database ([] ++ [jobEmptyId]) [jobEmptyId, jobNullId]
      = (([] ++ [jobEmptyId]) ++ (merge_jobs_into_database [] [jobEmptyId, jobNullId]).1.drop
          ([] : List Job).length,
         (merge_jobs_into_database [] [jobEmptyId, jobNullId]).2) :=
  merge_falsy_id_as_missing [] [jobEmptyId, jobNullId] jobEmptyId (by decide)

/-! Helper lemmas about `setItem` and the attach step. -/

theorem find?_map_setKey (k : String) (v : Value) :
    ∀ j : Job, j.any (fun p => p.1 = k) = true →
      (j.map (fun p => if p.1 = k then (k, v) else p)).find? (fun p => p.1 = k)
        = some (k, v)
  | [], h => by simp at h
  | q :: js, h => by
    by_cases hq : q.1 = k
    · simp [List.find?, hq]
    · simp only [List.any_cons, Bool.or_eq_true, decide_eq_true_eq] at h
      have h2 : js.any (fun p => p.1 = k) = true := by
        rcases h with h | h
        · exact absurd h hq
        · exact h
      simp only [List.map_cons, if_neg hq]
      rw [List.find?_cons_of_neg _ (by simpa using hq)]
      exact find?_map_setKey k v js h2

theorem pyGet_setItem (j : Job) (k : String) (v : Value) :
    pyGet (setItem j k v) k = some v := by
  unfold setItem pyGet
  by_cases h : j.any (fun p => p.1 = k) = true
  · rw [if_pos h, find?_map_setKey k v j h]
    rfl
  · rw [if_neg h]
    have hnone : j.find? (fun p => p.1 = k) = none := by
      rw [List.find?_eq_none]
      intro p hp hpk
      exact h (List.any_eq_true.mpr ⟨p, hp, hpk⟩)
    rw [List.find?_append, hnone]
    simp

/-- C8: attach cardinality and purity. `add_embeddings_to_jobs` succeeds iff
the record and vector counts match; on success it returns copies of the
inputs with `embedding` set positionally (and `setItem` really stores the
vector under `embedding`); with two records and one vector it always fails.
The embedding is a pure function, so the input collection is untouched. -/
theorem attach_cardinality_and_purity (jobs : List Job)
    (embeddings : List (List ℚ)) :
    ((add_embeddings_to_jobs jobs embeddings).isOk = true ↔
      jobs.length = embeddings.length) ∧
    (jobs.length = embeddings.length →
      add_embeddings_to_jobs jobs embeddings
        = .ok ((jobs.zip embeddings).map
            (fun p => setItem p.1 "embedding" (Value.vEmb p.2)))) ∧
    (∀ (j : Job) (w : List ℚ),
      pyGet (setItem j "embedding" (Value.vEmb w)) "embedding"
        = some (Value.vEmb w)) ∧
    (∀ (r1 r2 : Job) (w : List ℚ),
      (add_embeddings_to_jobs [r1, r2] [w]).isOk = false) := by
  refine ⟨?_, ?_, ?_, ?_⟩
  · unfold add_embeddings_to_jobs
    by_cases h : jobs.length = embeddings.length
    · rw [if_neg (by simpa using h)]
      simp [Except.isOk, Except.toBool, h]
    · rw [if_pos (by simpa using h)]
      simp [Except.isOk, Except.toBool, h]
  · intro h
    unfold add_embeddings_to_jobs
    rw [if_neg (by simpa using h)]
  · intro j w
    exact pyGet_setItem j "embedding" (Value.vEmb w)
  · intro r1 r2 w
    simp [add_embeddings_to_jobs, Except.isOk, Except.toBool]

/-- Witness for C8: attaching one vector to the one-record store `[jobA]`
succeeds and sets the embedding positionally. -/
theorem attach_cardinality_and_purity_witness :
    ((add_embeddings_to_jobs [jobA] [[1, 2]]).isOk = true ↔
      ([jobA] : List Job).length = ([[1, 2]] : List (List ℚ)).length) ∧
    add_embeddings_to_jobs [jobA] [[1, 2]]
      = .ok ((([jobA] : List Job).zip ([[1, 2]] : List (List ℚ))).map
          (fun p => setItem p.1 "embedding" (Value.vEmb p.2))) :=
  ⟨(attach_cardinality_and_purity [jobA] [[1, 2]]).1,
   (attach_cardinality_and_purity [jobA] [[1, 2]]).2.1 rfl⟩

/-- C9 counterexample: the claimed postcondition fails. On `dupExample` the
cleaner output contains two exactly equal rows, because deduplication runs
before character stripping and stripping maps the distinct rows `"a!"` and
`"a?"` both to `"a"`. -/
theorem clean_jobs_dup_counterexample :
    clean_jobs dupExample = ⟨["title"], [[.vStr "a"], [.vStr "a"]]⟩ ∧
    ¬ (clean_jobs dupExample).rows.Nodup := by
  constructor
  · decide
  · decide

theorem dropDuplicatesAux_spec :
    ∀ (l seen : List (List Value)),
      (∀ r ∈ dropDuplicatesAux seen l, r ∉ seen) ∧ (dropDuplicatesAux seen l).Nodup
  | [], seen => by simp [dropDuplicatesAux]
  | r :: rs, seen => by
    unfold dropDuplicatesAux
    by_cases h : seen.contains r = true
    · rw [if_pos h]
      obtain ⟨ih1, ih2⟩ := dropDuplicatesAux_spec rs seen
      exact ⟨ih1, ih2⟩
    · rw [if_neg h]
      obtain ⟨ih1, ih2⟩ := dropDuplicatesAux_spec rs (r :: seen)
      constructor
      · intro x hx hxseen
        rcases List.mem_cons.mp hx with rfl | hx'
        · exact h (List.elem_iff.mpr hxseen)
        · exact ih1 x hx' (List.mem_cons_of_mem _ hxseen)
      · refine List.nodup_cons.mpr ⟨?_, ih2⟩
        intro hr
        exact ih1 r hr (List.mem_cons_self r _)

/-- C9 as amended: the cleaner applies drop columns, then lowercasing, then
deduplication, then character stripping, in that order; the deduplication
stage leaves no two exactly equal rows, but the later stripping stage may
reintroduce exact duplicates, so the final output need not be
duplicate-free. -/
theorem clean_jobs_dedupe_before_strip (df : DataFrame) :
    clean_jobs df
      = mapCells stripCell (drop_duplicates (mapCells lowerCell (dropCols df))) ∧
    (drop_duplicates (mapCells lowerCell (dropCols df))).rows.Nodup :=
  ⟨rfl, (dropDuplicatesAux_spec (mapCells lowerCell (dropCols df)).rows []).2⟩

/-! Helper lemmas about the cosine similarity. -/

open Finset in
theorem dotList_eq_sum :
    ∀ (a b : List ℝ), a.length = b.length →
      dotList a b = ∑ i in Finset.range a.length, a.getD i 0 * b.getD i 0
  | [], [], _ => by simp [dotList]
  | [], y :: ys, h => by simp at h
  | x :: xs, [], h => by simp at h
  | x :: xs, y :: ys, h => by
    have h' : xs.length = ys.length := by simpa using h
    simp only [dotList, List.zip_cons_cons, List.map_cons, List.sum_cons,
      List.length_cons]
    rw [Finset.sum_range_succ']
    simp only [List.getD_cons_succ, List.getD_cons_zero]
    rw [← dotList_eq_sum xs ys h']
    simp only [dotList]
    ring

open Finset in
theorem sumSq_eq_sum :
    ∀ a : List ℝ, sumSq a = ∑ i in Finset.range a.length, a.getD i 0 ^ 2
  | [] => by simp [sumSq]
  | x :: xs => by
    simp only [sumSq, List.map_cons, List.sum_cons, List.length_cons]
    rw [Finset.sum_range_succ']
    simp only [List.getD_cons_succ, List.getD_cons_zero]
    rw [← sumSq_eq_sum xs]
    simp only [sumSq]
    ring

theorem sumSq_nonneg (a : List ℝ) : 0 ≤ sumSq a := by
  apply List.sum_nonneg
  intro x hx
  obtain ⟨y, -, rfl⟩ := List.mem_map.mp hx
  exact mul_self_nonneg y

theorem normList_nonneg (a : List ℝ) : 0 ≤ normList a :=
  Real.sqrt_nonneg _

theorem dotList_self (a : List ℝ) : dotList a a = sumSq a := by
  induction a with
  | nil => simp [dotList, sumSq]
  | cons x xs ih => simp [dotList, sumSq] at ih ⊢; rw [ih]

theorem dotList_le_norm_mul_norm (a b : List ℝ) (h : a.length = b.length) :
    dotList a b ≤ normList a * normList b := by
  rw [dotList_eq_sum a b h]
  unfold normList
  rw [sumSq_eq_sum, sumSq_eq_sum, ← h]
  exact Real.sum_mul_le_sqrt_mul_sqrt _ _ _

theorem neg_norm_mul_norm_le_dotList (a b : List ℝ) (h : a.length = b.length) :
    -(normList a * normList b) ≤ dotList a b := by
  rw [dotList_eq_sum a b h]
  unfold normList
  rw [sumSq_eq_sum, sumSq_eq_sum, ← h]
  have hcs := Real.sum_mul_le_sqrt_mul_sqrt (Finset.range a.length)
    (fun i => -(a.getD i 0)) (fun i => b.getD i 0)
  simp only [neg_mul, Finset.sum_neg_distrib, neg_sq] at hcs
  linarith

theorem normList_eq_zero_iff (a : List ℝ) : normList a = 0 ↔ sumSq a = 0 := by
  unfold normList
  exact Real.sqrt_eq_zero (sumSq_nonneg a)

/-- C4: cosine similarity bounds. For equal-length vectors whose magnitudes
are both non-zero, `cosine_similarity` returns exactly
`dot(a,b) / (norm a * norm b)`, that value lies in `[-1, 1]`, and a non-zero
vector has similarity exactly `1` with itself (Python floats idealised as
reals, so the tolerances hold exactly). -/
theorem cosine_similarity_bounds (a b : List ℝ) (hlen : a.length = b.length)
    (ha : normList a ≠ 0) (hb : normList b ≠ 0) :
    cosine_similarity a b = .ok (dotList a b / (normList a * normList b)) ∧
    -1 ≤ dotList a b / (normList a * normList b) ∧
    dotList a b / (normList a * normList b) ≤ 1 ∧
    cosine_similarity a a = .ok 1 := by
  have hna : 0 < normList a := lt_of_le_of_ne (normList_nonneg a) (Ne.symm ha)
  have hnb : 0 < normList b := lt_of_le_of_ne (normList_nonneg b) (Ne.symm hb)
  have hD : 0 < normList a * normList b := mul_pos hna hnb
  refine ⟨?_, ?_, ?_, ?_⟩
  · unfold cosine_similarity
    rw [if_neg (by simp [hlen]), if_neg (by simp [ha, hb])]
  · rw [le_div_iff₀ hD, neg_one_mul]
    exact neg_norm_mul_norm_le_dotList a b hlen
  · rw [div_le_one hD]
    exact dotList_le_norm_mul_norm a b hlen
  · unfold cosine_similarity
    rw [if_neg (by simp), if_neg (by simp [ha])]
    rw [dotList_self]
    have hss : normList a * normList a = sumSq a :=
      Real.mul_self_sqrt (sumSq_nonneg a)
    rw [hss, div_self (fun h0 => ha ((normList_eq_zero_iff a).mpr h0))]

/-- Witness for C4 on the one-dimensional unit vectors `[1]` and `[1]`. -/
theorem cosine_similarity_bounds_witness :
    cosine_similarity [(1 : ℝ)] [1] =
      .ok (dotList [(1 : ℝ)] [1] / (normList [(1 : ℝ)] * normList [(1 : ℝ)])) ∧
    -1 ≤ dotList [(1 : ℝ)] [1] / (normList [(1 : ℝ)] * normList [(1 : ℝ)]) ∧
    dotList [(1 : ℝ)] [1] / (normList [(1 : ℝ)] * normList [(1 : ℝ)]) ≤ 1 ∧
    cosine_similarity [(1 : ℝ)] [(1 : ℝ)] = .ok 1 :=
  cosine_similarity_bounds [1] [1] rfl (by norm_num [normList, sumSq])
    (by norm_num [normList, sumSq])

/-- C5: cosine similarity error contract. `cosine_similarity` fails iff the
lengths differ; on equal lengths a zero-magnitude vector yields exactly
`0.0` rather than an error, and in particular
`cosine_similarity [0,0,0] [1,2,3] = 0.0`. -/
theorem cosine_similarity_error_contract (a b : List ℝ) :
    ((cosine_similarity a b).isOk = false ↔ a.length ≠ b.length) ∧
    (a.length = b.length → normList a = 0 ∨ normList b = 0 →
      cosine_similarity a b = .ok 0) ∧
    cosine_similarity [0, 0, 0] [1, 2, 3] = .ok 0 := by
  refine ⟨?_, ?_, ?_⟩
  · by_cases h : a.length = b.length
    · by_cases hz : normList a = 0 ∨ normList b = 0 <;>
        simp [cosine_similarity, h, hz, Except.isOk, Except.toBool]
    · simp [cosine_similarity, h, Except.isOk, Except.toBool]
  · intro hlen hz
    unfold cosine_similarity
    rw [if_neg (by simp [hlen]), if_pos hz]
  · have h0 : normList [(0 : ℝ), 0, 0] = 0 := by
      norm_num [normList, sumSq]
    unfold cosine_similarity
    rw [if_neg (by norm_num), if_pos (Or.inl h0)]

/-- Witness for C5: the zero-vector scenario evaluated through the
contract theorem. -/
theorem cosine_similarity_error_contract_witness :
    cosine_similarity [(0 : ℝ), 0, 0] [1, 2, 3] = .ok 0 :=
  (cosine_similarity_error_contract [(0 : ℝ), 0, 0] [1, 2, 3]).2.1 rfl
    (Or.inl (by norm_num [normList, sumSq]))

/-! Helper lemmas about the batched fetcher. -/

theorem range'_eq_map (step : Nat) :
    ∀ (n s : Nat), List.range' s n step = (List.range n).map (fun k => s + step * k)
  | 0, s => by simp
  | n + 1, s => by
    rw [List.range'_succ, List.range_succ_eq_map, range'_eq_map step n (s + step)]
    simp only [List.map_cons, Nat.mul_zero, Nat.add_zero, List.map_map]
    congr 1
    congr 1
    funext k
    simp only [Function.comp_apply, Nat.mul_succ]
    omega

theorem collectBatches_foldl (backend : Nat → Nat → BatchResult) :
    ∀ (offsets : List Nat) (acc : List (List Job)),
      offsets.foldl (fun acc off =>
        match backend BATCH_SIZE off with
        | .fail => acc
        | .records l => if l.isEmpty then acc else acc ++ [l]) acc
      = acc ++ offsets.filterMap (fun off =>
          match backend BATCH_SIZE off with
          | .fail => none
          | .records l => if l.isEmpty then none else some l)
  | [], acc => by simp
  | off :: offs, acc => by
    rw [List.foldl_cons, List.filterMap_cons]
    cases hb : backend BATCH_SIZE off with
    | fail =>
      dsimp only
      rw [collectBatches_foldl backend offs acc]
    | records l =>
      dsimp only
      by_cases hl : l.isEmpty = true
      · rw [if_pos hl, if_pos hl, collectBatches_foldl backend offs acc]
      · rw [if_neg hl, if_neg hl, collectBatches_foldl backend offs (acc ++ [l])]
        simp

/-- C7: batched fetch structure and failure absorption. When the requested
total exceeds the ceiling, the offsets iterated are `0, 20, 40, ...` (the
`k`-th batch starts at the `BATCH_SIZE * k` records already requested), each
call requests exactly `BATCH_SIZE` records; the result is the concatenation,
in batch order, of the non-empty successful batch results, with failed
(retry-exhausted) batches skipped; and if every batch fails the result is
empty. -/
theorem batched_fetch_spec (backend : Nat → Nat → BatchResult)
    (results_wanted : Nat) (h : results_wanted > BATCH_SIZE) :
    pyRange results_wanted BATCH_SIZE
      = (List.range ((results_wanted + BATCH_SIZE - 1) / BATCH_SIZE)).map
          (fun k => BATCH_SIZE * k) ∧
    get_jobs backend results_wanted
      = ((pyRange results_wanted BATCH_SIZE).filterMap (fun off =>
          match backend BATCH_SIZE off with
          | .fail => none
          | .records l => if l.isEmpty then none else some l)).flatten ∧
    ((∀ off ∈ pyRange results_wanted BATCH_SIZE,
        backend BATCH_SIZE off = .fail) →
      get_jobs backend results_wanted = []) := by
  have hchar : get_jobs backend results_wanted
      = ((pyRange results_wanted BATCH_SIZE).filterMap (fun off =>
          match backend BATCH_SIZE off with
          | .fail => none
          | .records l => if l.isEmpty then none else some l)).flatten := by
    unfold get_jobs
    rw [if_pos h]
    unfold collectBatches
    rw [collectBatches_foldl backend]
    simp
  refine ⟨?_, hchar, ?_⟩
  · unfold pyRange
    rw [range'_eq_map]
    simp
  · intro hall
    rw [hchar]
    have hnil : (pyRange results_wanted BATCH_SIZE).filterMap (fun off =>
        match backend BATCH_SIZE off with
        | .fail => none
        | .records l => if l.isEmpty then none else some l) = [] := by
      rw [List.filterMap_eq_nil_iff]
      intro off hoff
      rw [hall off hoff]
    rw [hnil, List.flatten_nil]

/-- Witness for C7: a backend whose every batch exhausts its retries makes a
45-record fetch return the empty sequence. -/
theorem batched_fetch_spec_witness :
    get_jobs (fun _ _ => BatchResult.fail) 45 = [] :=
  (batched_fetch_spec (fun _ _ => BatchResult.fail) 45 (by decide)).2.2
    (fun off hoff => rfl)

end JobPipeline
